import Mathlib

/-!
Verification of the BybitCalculator aggregation core.

The source file src/bybit_calculator.py builds entries from user input
(function input_entries, deriving notional and size from margin, leverage
and price) and folds a list of entries into a summary of position metrics
(function compute_summary).  Floating point arithmetic of the source is
embedded as exact rational arithmetic; the formatted risk/reward string is
embedded as an optional rational (none standing for the N/A branch).
-/

namespace BybitCalculator

/-- An entry record, as consumed by compute_summary: the dict
`{ entry, im, lev, notional, size_btc }` of the source. -/
structure Entry where
  entry : ℚ
  im : ℚ
  lev : ℚ
  notional : ℚ
  size_btc : ℚ
deriving DecidableEq, Repr

/-- Construction of an entry from price, initial margin and leverage as done
by input_entries: `notional = im * lev`, `size_btc = notional / entry_price`. -/
def mkEntry (price im lev : ℚ) : Entry :=
  { entry := price, im := im, lev := lev,
    notional := im * lev, size_btc := im * lev / price }

/-- Position side; main() only admits the strings long and short. -/
inductive Side where
  | long : Side
  | short : Side
deriving DecidableEq, Repr

/-- The dict returned by compute_summary.  The rr_text field of the source is
a formatted string; it is embedded as an optional ratio, none for N/A. -/
structure Summary where
  total_notional : ℚ
  total_btc : ℚ
  avg_entry : ℚ
  total_im : ℚ
  maintenance_margin : ℚ
  liq_price : ℚ
  pnl_tp : ℚ
  pnl_sl : ℚ
  move_tp_pct : ℚ
  move_sl_pct : ℚ
  rr_text : Option ℚ
  tp : ℚ
  sl : ℚ
deriving DecidableEq, Repr

/-- `sum(e["notional"] for e in entries)` -/
def totalNotional (entries : List Entry) : ℚ :=
  (entries.map Entry.notional).sum

/-- `sum(e["size_btc"] for e in entries)` -/
def totalSize (entries : List Entry) : ℚ :=
  (entries.map Entry.size_btc).sum

/-- `sum(e["im"] for e in entries)` -/
def totalIM (entries : List Entry) : ℚ :=
  (entries.map Entry.im).sum

/-- `sum(e["entry"] * e["size_btc"] for e in entries)` -/
def weightedSum (entries : List Entry) : ℚ :=
  (entries.map (fun e => e.entry * e.size_btc)).sum

/-- The size-weighted average entry price of an entry list. -/
def avgEntry (entries : List Entry) : ℚ :=
  weightedSum entries / totalSize entries

/-- The body of compute_summary after the total_btc guard: every field of the
returned dict, computed exactly as in the source. -/
def summaryOf (entries : List Entry) (side : Side) (mmr tp sl : ℚ) : Summary :=
  let total_notional := totalNotional entries
  let total_btc := totalSize entries
  let avg_entry := weightedSum entries / total_btc
  let total_im := totalIM entries
  let maintenance_margin := total_notional * mmr
  let liq_price :=
    match side with
    | Side.short => avg_entry + (total_im - maintenance_margin) / total_btc
    | Side.long => avg_entry - (total_im - maintenance_margin) / total_btc
  let pnl_tp :=
    match side with
    | Side.short => (avg_entry - tp) * total_btc
    | Side.long => (tp - avg_entry) * total_btc
  let pnl_sl :=
    match side with
    | Side.short => (avg_entry - sl) * total_btc
    | Side.long => (sl - avg_entry) * total_btc
  let move_tp_pct := ((tp - avg_entry) / avg_entry) * 100
  let move_sl_pct := ((sl - avg_entry) / avg_entry) * 100
  let risk := |pnl_sl|
  let reward := |pnl_tp|
  let rr_text : Option ℚ := if 0 < risk then some (reward / risk) else none
  { total_notional := total_notional, total_btc := total_btc,
    avg_entry := avg_entry, total_im := total_im,
    maintenance_margin := maintenance_margin, liq_price := liq_price,
    pnl_tp := pnl_tp, pnl_sl := pnl_sl,
    move_tp_pct := move_tp_pct, move_sl_pct := move_sl_pct,
    rr_text := rr_text, tp := tp, sl := sl }

/-- compute_summary from the source: returns None when `total_btc <= 0`,
otherwise the summary dict. -/
def compute_summary (entries : List Entry) (side : Side) (mmr tp sl : ℚ) :
    Option Summary :=
  if totalSize entries ≤ 0 then none else some (summaryOf entries side mmr tp sl)

/-- The single base entry of the concrete spec scenario:
entry 30000, initial margin 1000, leverage 10. -/
def demoEntries : List Entry := [mkEntry 30000 1000 10]

/-- Failure conditions of the inverse solver described by the spec. -/
inductive SolveError where
  | NoSolution : SolveError
  | NonPositiveResult : SolveError
deriving DecidableEq, Repr

/-- Modelled from the spec: the inverse solver is described by the spec but
missing from src, which only holds the aggregator.  This is the denominator
of its solve-for-margin mode, by side: short (L + 1 - L*m) - T*L/e, long
(L - 1 + L*m) - T*L/e, with L the leverage, m the maintenance margin rate,
T the target liquidation price and e the chosen new entry price. -/
def solveDenom (mmr L T e : ℚ) (side : Side) : ℚ :=
  match side with
  | Side.short => (L + 1 - L * mmr) - T * L / e
  | Side.long => (L - 1 + L * mmr) - T * L / e

/-- Modelled from the spec: the numerator of the solve-for-margin mode of the
missing inverse solver, with A the average entry times the base size, B the
base size, C the base notional and IM0 the base margin:
short T*B - (A + IM0 - C*m), long T*B - (A - IM0 + C*m). -/
def solveNum (entries : List Entry) (mmr T : ℚ) (side : Side) : ℚ :=
  match side with
  | Side.short =>
      T * totalSize entries -
        (avgEntry entries * totalSize entries + totalIM entries -
          totalNotional entries * mmr)
  | Side.long =>
      T * totalSize entries -
        (avgEntry entries * totalSize entries - totalIM entries +
          totalNotional entries * mmr)

/-- Modelled from the spec: the solve-for-margin mode of the missing inverse
solver.  It reports NoSolution when the magnitude of the denominator is below
1e-12, reports a non-positive solved margin as invalid, and otherwise returns
the solved margin. -/
def solve_margin (entries : List Entry) (mmr L : ℚ) (side : Side) (T e : ℚ) :
    Except SolveError ℚ :=
  if |solveDenom mmr L T e side| < 1 / 1000000000000 then
    Except.error SolveError.NoSolution
  else if solveNum entries mmr T side / solveDenom mmr L T e side ≤ 0 then
    Except.error SolveError.NonPositiveResult
  else
    Except.ok (solveNum entries mmr T side / solveDenom mmr L T e side)

/-- Claim C1: for every entry list with positive total size, the liquidation
price of the aggregate is the size-weighted average entry plus
(total initial margin minus maintenance margin) over total size when the side
is short, and the average entry minus that quotient when the side is long. -/
theorem liq_price_formula (entries : List Entry) (mmr tp sl : ℚ)
    (hQ : 0 < totalSize entries) :
    (∃ s, compute_summary entries Side.short mmr tp sl = some s ∧
        s.liq_price = avgEntry entries +
          (totalIM entries - totalNotional entries * mmr) / totalSize entries) ∧
    (∃ s, compute_summary entries Side.long mmr tp sl = some s ∧
        s.liq_price = avgEntry entries -
          (totalIM entries - totalNotional entries * mmr) / totalSize entries) := by
  have h : ¬ totalSize entries ≤ 0 := not_le.mpr hQ
  refine ⟨⟨summaryOf entries Side.short mmr tp sl, ?_, ?_⟩,
    ⟨summaryOf entries Side.long mmr tp sl, ?_, ?_⟩⟩
  · rw [compute_summary, if_neg h]
  · simp [summaryOf, avgEntry]
  · rw [compute_summary, if_neg h]
  · simp [summaryOf, avgEntry]

/-- Witness for liq_price_formula at the demo entry list. -/
theorem liq_price_formula_witness :
    0 < totalSize demoEntries ∧
    ((∃ s, compute_summary demoEntries Side.short (1/200) 31000 29000 = some s ∧
        s.liq_price = avgEntry demoEntries +
          (totalIM demoEntries - totalNotional demoEntries * (1/200)) /
            totalSize demoEntries) ∧
     (∃ s, compute_summary demoEntries Side.long (1/200) 31000 29000 = some s ∧
        s.liq_price = avgEntry demoEntries -
          (totalIM demoEntries - totalNotional demoEntries * (1/200)) /
            totalSize demoEntries)) :=
  ⟨by norm_num [totalSize, demoEntries, mkEntry],
   liq_price_formula demoEntries (1/200) 31000 29000
     (by norm_num [totalSize, demoEntries, mkEntry])⟩

/-- Claim C2, counterexample: an entry list whose total notional is
non-positive while its total size is positive still produces aggregate
values, so the aggregation does not fail on every list with
total_notional less or equal zero. -/
theorem notional_guard_counterexample :
    totalNotional [mkEntry (-1) (-10) 1] ≤ 0 ∧
    compute_summary [mkEntry (-1) (-10) 1] Side.long (1/200) 1 2 ≠ none := by
  constructor
  · norm_num [totalNotional, mkEntry]
  · rw [compute_summary, if_neg]
    · simp
    · norm_num [totalSize, mkEntry]

/-- Claim C2, amended: the aggregation fails, returning None, exactly when
the total size is non-positive; the total notional is not checked. -/
theorem compute_summary_none_iff (entries : List Entry) (side : Side)
    (mmr tp sl : ℚ) :
    compute_summary entries side mmr tp sl = none ↔ totalSize entries ≤ 0 := by
  rw [compute_summary]
  split_ifs with h <;> simp [h]

/-- Claim C3: for every entry list with positive total size, the average
entry price of the aggregate is the sum of entry price times size over the
entries, divided by the total size. -/
theorem avg_entry_formula (entries : List Entry) (side : Side) (mmr tp sl : ℚ)
    (hQ : 0 < totalSize entries) :
    ∃ s, compute_summary entries side mmr tp sl = some s ∧
      s.avg_entry = weightedSum entries / totalSize entries := by
  have h : ¬ totalSize entries ≤ 0 := not_le.mpr hQ
  refine ⟨summaryOf entries side mmr tp sl, ?_, ?_⟩
  · rw [compute_summary, if_neg h]
  · simp [summaryOf]

/-- Witness for avg_entry_formula at the demo entry list. -/
theorem avg_entry_formula_witness :
    0 < totalSize demoEntries ∧
    ∃ s, compute_summary demoEntries Side.short (1/200) 31000 29000 = some s ∧
      s.avg_entry = weightedSum demoEntries / totalSize demoEntries :=
  ⟨by norm_num [totalSize, demoEntries, mkEntry],
   avg_entry_formula demoEntries Side.short (1/200) 31000 29000
     (by norm_num [totalSize, demoEntries, mkEntry])⟩

/-- Claim C7: aggregating the single entry with price 30000, margin 1000 and
leverage 10 at side short and mmr 0.005 gives notional 10000, size one third,
average entry 30000, total margin 1000, maintenance margin 50 and liquidation
price 32850, for any take profit and stop loss levels. -/
theorem concrete_short_scenario (tp sl : ℚ) :
    ∃ s, compute_summary demoEntries Side.short (1/200) tp sl = some s ∧
      s.total_notional = 10000 ∧ s.total_btc = 1/3 ∧ s.avg_entry = 30000 ∧
      s.total_im = 1000 ∧ s.maintenance_margin = 50 ∧ s.liq_price = 32850 := by
  refine ⟨summaryOf demoEntries Side.short (1/200) tp sl, ?_, ?_, ?_, ?_, ?_, ?_, ?_⟩
  · rw [compute_summary, if_neg]
    norm_num [totalSize, demoEntries, mkEntry]
  all_goals
    norm_num [summaryOf, totalSize, totalNotional, totalIM, weightedSum,
      demoEntries, mkEntry]

/-- Claim C5: for every entry list with positive total size, the aggregation
returns the same result on any permutation of the list. -/
theorem compute_summary_perm (l1 l2 : List Entry) (side : Side) (mmr tp sl : ℚ)
    (hQ : 0 < totalSize l1) (hp : l1.Perm l2) :
    compute_summary l1 side mmr tp sl = compute_summary l2 side mmr tp sl := by
  have hN : totalNotional l1 = totalNotional l2 :=
    List.Perm.sum_eq (hp.map Entry.notional)
  have hS : totalSize l1 = totalSize l2 :=
    List.Perm.sum_eq (hp.map Entry.size_btc)
  have hI : totalIM l1 = totalIM l2 :=
    List.Perm.sum_eq (hp.map Entry.im)
  have hW : weightedSum l1 = weightedSum l2 :=
    List.Perm.sum_eq (hp.map (fun e => e.entry * e.size_btc))
  simp only [compute_summary, summaryOf, hN, hS, hI, hW]

/-- Witness for compute_summary_perm at a two-entry list and its swap. -/
theorem compute_summary_perm_witness :
    0 < totalSize [mkEntry 100 50 5, mkEntry 120 50 5] ∧
    ([mkEntry 100 50 5, mkEntry 120 50 5] : List Entry).Perm
      [mkEntry 120 50 5, mkEntry 100 50 5] ∧
    compute_summary [mkEntry 100 50 5, mkEntry 120 50 5] Side.long (1/200) 130 90 =
      compute_summary [mkEntry 120 50 5, mkEntry 100 50 5] Side.long (1/200) 130 90 :=
  ⟨by norm_num [totalSize, mkEntry], List.Perm.swap _ _ _,
   compute_summary_perm [mkEntry 100 50 5, mkEntry 120 50 5]
     [mkEntry 120 50 5, mkEntry 100 50 5] Side.long (1/200) 130 90
     (by norm_num [totalSize, mkEntry]) (List.Perm.swap _ _ _)⟩

/-- Claim C6: entries derive notional as margin times leverage and size as
notional over entry price, and the aggregate maintenance margin is the total
notional times the maintenance margin rate. -/
theorem entry_derivation_and_maintenance (p i l : ℚ) (entries : List Entry)
    (side : Side) (mmr tp sl : ℚ) (hQ : 0 < totalSize entries) :
    (mkEntry p i l).notional = i * l ∧
    (mkEntry p i l).size_btc = (mkEntry p i l).notional / p ∧
    ∃ s, compute_summary entries side mmr tp sl = some s ∧
      s.maintenance_margin = totalNotional entries * mmr := by
  refine ⟨rfl, rfl, summaryOf entries side mmr tp sl, ?_, ?_⟩
  · rw [compute_summary, if_neg (not_le.mpr hQ)]
  · simp [summaryOf]

/-- Witness for entry_derivation_and_maintenance at the demo entry list. -/
theorem entry_derivation_and_maintenance_witness :
    0 < totalSize demoEntries ∧
    ((mkEntry 30000 1000 10).notional = 1000 * 10 ∧
     (mkEntry 30000 1000 10).size_btc = (mkEntry 30000 1000 10).notional / 30000 ∧
     ∃ s, compute_summary demoEntries Side.short (1/200) 31000 29000 = some s ∧
       s.maintenance_margin = totalNotional demoEntries * (1/200)) :=
  ⟨by norm_num [totalSize, demoEntries, mkEntry],
   entry_derivation_and_maintenance 30000 1000 10 demoEntries Side.short
     (1/200) 31000 29000 (by norm_num [totalSize, demoEntries, mkEntry])⟩

/-- Claim C8: with positive total size, the risk reward text is the N/A value
exactly when the absolute profit and loss at the stop loss is zero, which
holds exactly when the stop loss equals the average entry; otherwise the text
carries the ratio of the absolute profit and loss at take profit over the one
at stop loss, and no ratio is ever produced when the risk is zero. -/
theorem rr_text_na_iff (entries : List Entry) (side : Side) (mmr tp sl : ℚ)
    (hQ : 0 < totalSize entries) :
    ∃ s, compute_summary entries side mmr tp sl = some s ∧
      (s.rr_text = none ↔ |s.pnl_sl| = 0) ∧
      (|s.pnl_sl| = 0 ↔ sl = s.avg_entry) ∧
      (∀ r, s.rr_text = some r → r = |s.pnl_tp| / |s.pnl_sl|) := by
  have hQ0 : totalSize entries ≠ 0 := ne_of_gt hQ
  refine ⟨summaryOf entries side mmr tp sl, ?_, ?_, ?_, ?_⟩
  · rw [compute_summary, if_neg (not_le.mpr hQ)]
  · simp only [summaryOf]
    split_ifs with h
    · simp [h.ne.symm]
    · simp only [not_lt] at h
      simp [le_antisymm h (abs_nonneg _)]
  · cases side <;>
      simp [summaryOf, abs_eq_zero, mul_eq_zero, sub_eq_zero, hQ0, eq_comm]
  · intro r
    simp only [summaryOf]
    split_ifs with h
    · intro hr
      exact (Option.some_inj.mp hr).symm
    · intro hr
      simp at hr

/-- Witness for rr_text_na_iff at the demo entry list. -/
theorem rr_text_na_iff_witness :
    0 < totalSize demoEntries ∧
    ∃ s, compute_summary demoEntries Side.short (1/200) 31000 29000 = some s ∧
      (s.rr_text = none ↔ |s.pnl_sl| = 0) ∧
      (|s.pnl_sl| = 0 ↔ (29000:ℚ) = s.avg_entry) ∧
      (∀ r, s.rr_text = some r → r = |s.pnl_tp| / |s.pnl_sl|) :=
  ⟨by norm_num [totalSize, demoEntries, mkEntry],
   rr_text_na_iff demoEntries Side.short (1/200) 31000 29000
     (by norm_num [totalSize, demoEntries, mkEntry])⟩

/-- Claim C9: with positive total size, the profit and loss values at the
take profit and stop loss levels for side short are the exact negations of
those for side long on the same inputs. -/
theorem pnl_side_antisymmetry (entries : List Entry) (mmr tp sl : ℚ)
    (hQ : 0 < totalSize entries) :
    ∃ sS sL, compute_summary entries Side.short mmr tp sl = some sS ∧
      compute_summary entries Side.long mmr tp sl = some sL ∧
      sS.pnl_tp = -sL.pnl_tp ∧ sS.pnl_sl = -sL.pnl_sl := by
  refine ⟨summaryOf entries Side.short mmr tp sl,
    summaryOf entries Side.long mmr tp sl, ?_, ?_, ?_, ?_⟩
  · rw [compute_summary, if_neg (not_le.mpr hQ)]
  · rw [compute_summary, if_neg (not_le.mpr hQ)]
  · simp only [summaryOf]
    ring
  · simp only [summaryOf]
    ring

/-- Witness for pnl_side_antisymmetry at the demo entry list. -/
theorem pnl_side_antisymmetry_witness :
    0 < totalSize demoEntries ∧
    ∃ sS sL, compute_summary demoEntries Side.short (1/200) 31000 29000 = some sS ∧
      compute_summary demoEntries Side.long (1/200) 31000 29000 = some sL ∧
      sS.pnl_tp = -sL.pnl_tp ∧ sS.pnl_sl = -sL.pnl_sl :=
  ⟨by norm_num [totalSize, demoEntries, mkEntry],
   pnl_side_antisymmetry demoEntries (1/200) 31000 29000
     (by norm_num [totalSize, demoEntries, mkEntry])⟩

/-- Claim C10: with positive total size and fixed mmr, take profit and stop
loss, the fields total_notional, total_btc, avg_entry, total_im,
maintenance_margin, move_tp_pct and move_sl_pct of the summary are the same
for side long and side short. -/
theorem side_noninterference (entries : List Entry) (mmr tp sl : ℚ)
    (hQ : 0 < totalSize entries) :
    ∃ sS sL, compute_summary entries Side.short mmr tp sl = some sS ∧
      compute_summary entries Side.long mmr tp sl = some sL ∧
      sS.total_notional = sL.total_notional ∧ sS.total_btc = sL.total_btc ∧
      sS.avg_entry = sL.avg_entry ∧ sS.total_im = sL.total_im ∧
      sS.maintenance_margin = sL.maintenance_margin ∧
      sS.move_tp_pct = sL.move_tp_pct ∧ sS.move_sl_pct = sL.move_sl_pct := by
  refine ⟨summaryOf entries Side.short mmr tp sl,
    summaryOf entries Side.long mmr tp sl, ?_, ?_, ?_, ?_, ?_, ?_, ?_, ?_, ?_⟩
  · rw [compute_summary, if_neg (not_le.mpr hQ)]
  · rw [compute_summary, if_neg (not_le.mpr hQ)]
  all_goals simp only [summaryOf]

/-- Witness for side_noninterference at the demo entry list. -/
theorem side_noninterference_witness :
    0 < totalSize demoEntries ∧
    ∃ sS sL, compute_summary demoEntries Side.short (1/200) 31000 29000 = some sS ∧
      compute_summary demoEntries Side.long (1/200) 31000 29000 = some sL ∧
      sS.total_notional = sL.total_notional ∧ sS.total_btc = sL.total_btc ∧
      sS.avg_entry = sL.avg_entry ∧ sS.total_im = sL.total_im ∧
      sS.maintenance_margin = sL.maintenance_margin ∧
      sS.move_tp_pct = sL.move_tp_pct ∧ sS.move_sl_pct = sL.move_sl_pct :=
  ⟨by norm_num [totalSize, demoEntries, mkEntry],
   side_noninterference demoEntries (1/200) 31000 29000
     (by norm_num [totalSize, demoEntries, mkEntry])⟩

/-- Claim C4: whenever the solve-for-margin mode of the spec-modelled solver
succeeds on a valid base aggregate, a positive chosen entry price and a
positive leverage, appending the solved position and recomputing the
aggregate with the same formulas reproduces the target liquidation price
exactly, hence within the relative tolerance of 1e-6. -/
theorem solve_margin_roundtrip (entries : List Entry) (side : Side)
    (mmr L T e tp sl im : ℚ) (hQ : 0 < totalSize entries) (he : 0 < e)
    (hL : 0 < L) (hs : solve_margin entries mmr L side T e = Except.ok im) :
    ∃ s, compute_summary (entries ++ [mkEntry e im L]) side mmr tp sl = some s ∧
      s.liq_price = T ∧ |s.liq_price - T| ≤ |T| / 1000000 := by
  rw [solve_margin] at hs
  by_cases h1 : |solveDenom mmr L T e side| < 1 / 1000000000000
  · rw [if_pos h1] at hs
    simp at hs
  rw [if_neg h1] at hs
  by_cases h2 : solveNum entries mmr T side / solveDenom mmr L T e side ≤ 0
  · rw [if_pos h2] at hs
    simp at hs
  rw [if_neg h2] at hs
  have hD : solveDenom mmr L T e side ≠ 0 := by
    intro h0
    rw [h0] at h1
    norm_num at h1
  have him : im = solveNum entries mmr T side / solveDenom mmr L T e side :=
    (Except.ok.inj hs).symm
  have himpos : 0 < im := by
    rw [him]
    exact lt_of_not_le h2
  have hkey : im * solveDenom mmr L T e side = solveNum entries mmr T side := by
    rw [him]
    exact div_mul_cancel₀ _ hD
  have hQ0 : totalSize entries ≠ 0 := ne_of_gt hQ
  have he0 : e ≠ 0 := ne_of_gt he
  have hA : avgEntry entries * totalSize entries = weightedSum entries := by
    rw [avgEntry]
    exact div_mul_cancel₀ _ hQ0
  have hsz : totalSize (entries ++ [mkEntry e im L]) =
      totalSize entries + im * L / e := by
    simp [totalSize, mkEntry]
  have hszpos : 0 < totalSize (entries ++ [mkEntry e im L]) := by
    rw [hsz]
    exact add_pos hQ (div_pos (mul_pos himpos hL) he)
  have hQ1 : totalSize entries + im * L / e ≠ 0 := by
    rw [← hsz]
    exact ne_of_gt hszpos
  have hW : weightedSum (entries ++ [mkEntry e im L]) =
      weightedSum entries + e * (im * L / e) := by
    simp [weightedSum, mkEntry]
  have hN : totalNotional (entries ++ [mkEntry e im L]) =
      totalNotional entries + im * L := by
    simp [totalNotional, mkEntry]
  have hI : totalIM (entries ++ [mkEntry e im L]) = totalIM entries + im := by
    simp [totalIM, mkEntry]
  have hliq :
      (summaryOf (entries ++ [mkEntry e im L]) side mmr tp sl).liq_price = T := by
    cases side
    case long =>
      have hkey2 : im * ((L - 1 + L * mmr) - T * L / e) =
          T * totalSize entries -
            (weightedSum entries - totalIM entries +
              totalNotional entries * mmr) := by
        have h := hkey
        simp only [solveDenom, solveNum, hA] at h
        exact h
      simp only [summaryOf, hsz, hW, hN, hI]
      rw [div_sub_div_same, div_eq_iff hQ1]
      field_simp at hkey2 ⊢
      linear_combination hkey2
    case short =>
      have hkey2 : im * ((L + 1 - L * mmr) - T * L / e) =
          T * totalSize entries -
            (weightedSum entries + totalIM entries -
              totalNotional entries * mmr) := by
        have h := hkey
        simp only [solveDenom, solveNum, hA] at h
        exact h
      simp only [summaryOf, hsz, hW, hN, hI]
      rw [div_add_div_same, div_eq_iff hQ1]
      field_simp at hkey2 ⊢
      linear_combination hkey2
  refine ⟨summaryOf (entries ++ [mkEntry e im L]) side mmr tp sl, ?_, hliq, ?_⟩
  · rw [compute_summary, if_neg (not_le.mpr hszpos)]
  · rw [hliq, sub_self, abs_zero]
    positivity

/-- Witness for solve_margin_roundtrip: from the demo base entry, targeting a
liquidation price of 33000 with a new short entry at 31000 and leverage 10,
the solver yields the margin 31000/189 and the recomputed aggregate hits the
target exactly. -/
theorem solve_margin_roundtrip_witness :
    0 < totalSize demoEntries ∧ (0:ℚ) < 31000 ∧ (0:ℚ) < 10 ∧
    solve_margin demoEntries (1/200) 10 Side.short 33000 31000 =
      Except.ok (31000/189) ∧
    ∃ s, compute_summary (demoEntries ++ [mkEntry 31000 (31000/189) 10])
        Side.short (1/200) 31000 29000 = some s ∧
      s.liq_price = 33000 ∧ |s.liq_price - 33000| ≤ |(33000:ℚ)| / 1000000 := by
  have hQ : 0 < totalSize demoEntries := by
    norm_num [totalSize, demoEntries, mkEntry]
  have hsolve : solve_margin demoEntries (1/200) 10 Side.short 33000 31000 =
      Except.ok (31000/189) := by
    norm_num [solve_margin, solveNum, solveDenom, avgEntry, weightedSum,
      totalSize, totalIM, totalNotional, demoEntries, mkEntry]
    intro h
    rw [abs_of_pos (by norm_num : (0:ℚ) < 189/620)] at h
    norm_num at h
  exact ⟨hQ, by norm_num, by norm_num, hsolve,
    solve_margin_roundtrip demoEntries Side.short (1/200) 10 33000 31000
      31000 29000 (31000/189) hQ (by norm_num) (by norm_num) hsolve⟩

end BybitCalculator
